import Mathlib

/-!
Shallow embedding of the post-gallery single-page application
(`src/unnamed/part_001`, the `PostList` component, plus its small
wrapper files).  Machine numbers in the source are JavaScript numbers
used only as small non-negative integers (post ids, user ids, page
numbers, HTTP status codes), so they are embedded as `Nat`.  Strings
are embedded as Lean `String`; `String.prototype.toLowerCase` is
embedded as `String.toLower` and `String.prototype.includes` as an
executable substring test on character lists.  `localeCompare` is
embedded as the lexicographic order on `String`.  The React state
object is a structure, every `setState` partial merge is a function
from state to state, and `localStorage` is an explicit field of a
session structure.  `Promise.all` over the two axios calls is embedded
as a pair of `Except` results.
-/

namespace PostApp

/-- A user record as returned by `GET /users`; only the fields the
component reads are kept. -/
structure User where
  id : Nat
  name : String
  deriving Repr, DecidableEq

/-- A raw post as returned by `GET /posts`. -/
structure RawPost where
  id : Nat
  userId : Nat
  title : String
  body : String
  deriving Repr, DecidableEq

/-- An enriched post: the raw fields plus the derived fields added in
`fetchData` (`user`, the synthetic date, `tags`). -/
structure Post where
  id : Nat
  userId : Nat
  title : String
  body : String
  user : Option User := none
  dateMonth : Nat := 0
  dateDay : Nat := 0
  tags : List String := []
  deriving Repr, DecidableEq

/-- The three values of the sort menu (`state.sortBy`). -/
inductive SortBy
  | newest
  | oldest
  | alphabetical
  deriving Repr, DecidableEq

/-- `leadMatch n h` holds when the character list `n` occurs at the
head of `h`; the base case of the substring test. -/
def leadMatch : List Char → List Char → Bool
  | [], _ => true
  | _ :: _, [] => false
  | a :: as, b :: bs => a == b && leadMatch as bs

/-- `hasSeg n h` holds when `n` occurs contiguously anywhere in `h`;
executable model of JavaScript substring containment. -/
def hasSeg (needle : List Char) : List Char → Bool
  | [] => needle.isEmpty
  | b :: bs => leadMatch needle (b :: bs) || hasSeg needle bs

/-- `strIncludes hay needle`: model of `hay.includes(needle)`. -/
def strIncludes (hay needle : String) : Bool :=
  hasSeg needle.toList hay.toList

/-- Model of `String.prototype.toLowerCase`: lower-case every
character. -/
def toLowerStr (s : String) : String :=
  String.mk (s.toList.map Char.toLower)

/-- The filter predicate of the `useMemo` pipeline:
`post.title.toLowerCase().includes(q.toLowerCase()) ||
 post.body.toLowerCase().includes(q.toLowerCase()) ||
 post.userId.toString() === q`. -/
def matchesSearch (q : String) (p : Post) : Bool :=
  strIncludes (toLowerStr p.title) (toLowerStr q) ||
  strIncludes (toLowerStr p.body) (toLowerStr q) ||
  toString p.userId == q

/-- The filter step: `state.posts.filter(...)`. -/
def filterPosts (posts : List Post) (q : String) : List Post :=
  posts.filter (matchesSearch q)

/-- The ordering used by the sort comparator for each mode:
`newest` puts larger ids first (`b.id - a.id`), `oldest` puts smaller
ids first (`a.id - b.id`), `alphabetical` orders by title
(`a.title.localeCompare(b.title)`, embedded as the lexicographic
string order). -/
def sortLE (mode : SortBy) (a b : Post) : Prop :=
  match mode with
  | .newest => b.id ≤ a.id
  | .oldest => a.id ≤ b.id
  | .alphabetical => a.title ≤ b.title

instance sortLEDec (mode : SortBy) : DecidableRel (sortLE mode) := fun a b =>
  match mode with
  | .newest => inferInstanceAs (Decidable (b.id ≤ a.id))
  | .oldest => inferInstanceAs (Decidable (a.id ≤ b.id))
  | .alphabetical => inferInstanceAs (Decidable (a.title ≤ b.title))

instance : IsTotal Post (sortLE .newest) := ⟨fun a b => Nat.le_total b.id a.id⟩

instance : IsTrans Post (sortLE .newest) := ⟨fun _ _ _ h1 h2 => Nat.le_trans h2 h1⟩

instance : IsTotal Post (sortLE .oldest) := ⟨fun a b => Nat.le_total a.id b.id⟩

instance : IsTrans Post (sortLE .oldest) := ⟨fun _ _ _ h1 h2 => Nat.le_trans h1 h2⟩

instance : IsTotal Post (sortLE .alphabetical) := ⟨fun a b => le_total a.title b.title⟩

instance : IsTrans Post (sortLE .alphabetical) := ⟨fun _ _ _ h1 h2 => le_trans h1 h2⟩

/-- The sort step: `[...filtered].sort(comparator)`.  JavaScript sort
with a consistent comparator is a stable sort; it is embedded as the
stable insertion sort over the comparator ordering. -/
def sortPosts (mode : SortBy) (l : List Post) : List Post :=
  List.insertionSort (sortLE mode) l

/-- `l.slice(start, stop)` for non-negative in-range-or-clamped
indices, as used with `indexOfFirstPost`/`indexOfLastPost`. -/
def jsSlice (l : List Post) (start stop : Nat) : List Post :=
  (l.drop start).take (stop - start)

/-- `Math.ceil(len / per)` on the natural numbers involved. -/
def pageCountOf (l : List Post) (per : Nat) : Nat :=
  (l.length + per - 1) / per

/-- The visible page: `sorted.slice(page*per - per, page*per)`. -/
def visibleSlice (l : List Post) (page per : Nat) : List Post :=
  jsSlice l (page * per - per) (page * per)

/-- The aggregate React state of `PostList` (`useState` object), with
the menu anchor element abstracted to an open flag.  The defaults are
the initial values in the source (favorites defaults to the parsed
local-storage value, passed in through `initState`). -/
structure AppState where
  posts : List Post := []
  loading : Bool := true
  error : String := ""
  searchQuery : String := ""
  currentPage : Nat := 1
  postsPerPage : Nat := 12
  sortBy : SortBy := .newest
  selectedPost : Option Post := none
  favorites : List Nat := []
  snackbarOpen : Bool := false
  snackbarMessage : String := ""
  darkMode : Bool := false
  sortMenuOpen : Bool := false
  deleteCandidate : Option Post := none
  deriving Repr

/-- The initial state; `favs` is `JSON.parse(localStorage.getItem('favorites')) || []`. -/
def initState (favs : List Nat) : AppState :=
  { favorites := favs }

/-- The filtered-then-sorted list of the `useMemo` pipeline for a
given (debounce-settled) search string `q`. -/
def derivedSorted (st : AppState) (q : String) : List Post :=
  sortPosts st.sortBy (filterPosts st.posts q)

/-- `pageCount` of the `useMemo` pipeline. -/
def derivedPageCount (st : AppState) (q : String) : Nat :=
  pageCountOf (derivedSorted st q) st.postsPerPage

/-- `currentPosts` of the `useMemo` pipeline. -/
def derivedCurrentPosts (st : AppState) (q : String) : List Post :=
  visibleSlice (derivedSorted st q) st.currentPage st.postsPerPage

/-- The search field `onChange` handler:
`setState(s => ({ ...s, searchQuery: value, currentPage: 1 }))`. -/
def onSearchChange (st : AppState) (q : String) : AppState :=
  { st with searchQuery := q, currentPage := 1 }

/-- A sort `MenuItem` `onClick` handler:
`setState(s => ({ ...s, sortBy: option, anchorEl: null }))`. -/
def onSortSelect (st : AppState) (mode : SortBy) : AppState :=
  { st with sortBy := mode, sortMenuOpen := false }

/-- `handleDelete(postId)`. -/
def handleDelete (st : AppState) (postId : Nat) : AppState :=
  { st with
    posts := st.posts.filter (fun p => p.id != postId),
    snackbarOpen := true,
    snackbarMessage := "Post deleted successfully",
    deleteCandidate := none }

/-- The delete-icon `onClick` handler: selects a delete candidate. -/
def onDeleteIconClick (st : AppState) (p : Post) : AppState :=
  { st with deleteCandidate := some p }

/-- The dialog cancel / close handler. -/
def onDeleteCancel (st : AppState) : AppState :=
  { st with deleteCandidate := none }

/-- An axios response object (`err.response`): status and statusText. -/
structure HttpResponse where
  status : Nat
  statusText : String
  deriving Repr, DecidableEq

/-- An axios error: an optional response object and whether a request
object is attached (the request reached the wire but got no answer). -/
structure FetchError where
  response : Option HttpResponse
  request : Bool
  deriving Repr, DecidableEq

/-- The message computed by `handleError`. -/
def errorMessage (err : FetchError) : String :=
  match err.response with
  | some r => "Error: " ++ toString r.status ++ " " ++ r.statusText
  | none => if err.request then "Server is not responding" else "Failed to fetch posts."

/-- `handleError`: stores the classified message in state. -/
def handleError (st : AppState) (err : FetchError) : AppState :=
  { st with error := errorMessage err }

/-- The fixed tag vocabulary of the enrichment step. -/
def tagVocabulary : List String := ["tech", "business", "health"]

/-- The per-post enrichment in `fetchData`:
`{ ...post, user: users.find(u => u.id === post.userId),
   date: new Date(2023, post.id % 12, post.id % 28),
   tags: ['tech','business','health'].slice(post.id % 3) }`.
JavaScript `Array.prototype.slice(n)` drops the first `n` elements. -/
def enrichPost (users : List User) (p : RawPost) : Post :=
  { id := p.id, userId := p.userId, title := p.title, body := p.body,
    user := users.find? (fun u => u.id == p.userId),
    dateMonth := p.id % 12, dateDay := p.id % 28,
    tags := tagVocabulary.drop (p.id % 3) }

/-- `fetchData`: the settled outcome of `Promise.all` over the two
axios calls.  Both succeeding enriches and stores the posts; either
failing runs `handleError` and clears the loading flag, leaving the
post list untouched. -/
def fetchData (st : AppState) (postsRes : Except FetchError (List RawPost))
    (usersRes : Except FetchError (List User)) : AppState :=
  match postsRes, usersRes with
  | .ok posts, .ok users =>
      { st with posts := posts.map (enrichPost users), loading := false }
  | .error e, _ => { handleError st e with loading := false }
  | .ok _, .error e => { handleError st e with loading := false }

/-- A browser session: the component state plus the value stored under
the `favorites` local-storage key. -/
structure Session where
  app : AppState
  storage : Option String
  deriving Repr

/-- `JSON.stringify` of a list of numbers. -/
def serializeFavorites (favs : List Nat) : String :=
  "[" ++ String.intercalate "," (favs.map toString) ++ "]"

/-- `toggleFavorite(postId)`: flips membership, writes the serialized
new list to local storage, opens the snackbar. -/
def toggleFavorite (s : Session) (postId : Nat) : Session :=
  let newFavorites :=
    if s.app.favorites.contains postId
    then s.app.favorites.filter (fun id => id != postId)
    else s.app.favorites ++ [postId]
  { app := { s.app with
      favorites := newFavorites,
      snackbarOpen := true,
      snackbarMessage :=
        if s.app.favorites.contains postId
        then "Removed from favorites"
        else "Added to favorites" },
    storage := some (serializeFavorites newFavorites) }

/-- Case-insensitive containment as the specification words it: the
lower-cased needle occurs contiguously in the lower-cased haystack. -/
def ContainsCI (hay needle : String) : Prop :=
  ∃ pre suf, (toLowerStr hay).toList = pre ++ (toLowerStr needle).toList ++ suf

/-- A minimal concrete post used by concrete evaluations. -/
def mkPost (n : Nat) : Post :=
  { id := n, userId := 1, title := "t", body := "b" }

/-- Thirteen concrete posts: one more than a page. -/
def wList13 : List Post := (List.range 13).map mkPost

/-- A concrete reachable-shaped state on page 2 of 2 with a pending
delete candidate. -/
def cexState : AppState :=
  { posts := wList13, loading := false, currentPage := 2,
    deleteCandidate := some (mkPost 3) }

/-- A concrete network-level error (request sent, no response). -/
def wErr : FetchError := { response := none, request := true }

/-- Everything claim C9 asserts about confirming a delete from state
`st` on candidate `cand`. -/
def DeleteSpec (st : AppState) (cand : Post) : Prop :=
  (handleDelete st cand.id).posts = st.posts.filter (fun p => p.id != cand.id) ∧
  ((handleDelete st cand.id).posts).Sublist st.posts ∧
  (∀ p, p ∈ (handleDelete st cand.id).posts ↔ p ∈ st.posts ∧ p.id ≠ cand.id) ∧
  (handleDelete st cand.id).deleteCandidate = none ∧
  (handleDelete st cand.id).snackbarOpen = true ∧
  (handleDelete st cand.id).snackbarMessage = "Post deleted successfully" ∧
  (derivedCurrentPosts (handleDelete st cand.id) (handleDelete st cand.id).searchQuery).length
      ≤ (handleDelete st cand.id).postsPerPage ∧
  ((derivedSorted (handleDelete st cand.id) (handleDelete st cand.id).searchQuery).length
        ≤ (handleDelete st cand.id).currentPage * (handleDelete st cand.id).postsPerPage
            - (handleDelete st cand.id).postsPerPage →
    derivedCurrentPosts (handleDelete st cand.id) (handleDelete st cand.id).searchQuery = [])

/-- `leadMatch` decides occurrence at the head. -/
theorem leadMatch_iff (n : List Char) : ∀ h, leadMatch n h = true ↔ ∃ t, h = n ++ t := by
  induction n with
  | nil => intro h; simp [leadMatch]
  | cons a as ih =>
    intro h
    cases h with
    | nil => simp [leadMatch]
    | cons b bs =>
      simp only [leadMatch, Bool.and_eq_true, beq_iff_eq, ih, List.cons_append]
      constructor
      · rintro ⟨rfl, t, rfl⟩
        exact ⟨t, rfl⟩
      · rintro ⟨t, ht⟩
        injection ht with h1 h2
        exact ⟨h1.symm, t, h2⟩

/-- `hasSeg` decides contiguous occurrence anywhere. -/
theorem hasSeg_iff (n h : List Char) : hasSeg n h = true ↔ ∃ pre suf, h = pre ++ n ++ suf := by
  induction h with
  | nil =>
    simp only [hasSeg, List.isEmpty_iff]
    constructor
    · rintro rfl; exact ⟨[], [], rfl⟩
    · rintro ⟨pre, suf, hps⟩
      rcases List.append_eq_nil.mp (List.append_eq_nil.mp hps.symm).1 with ⟨-, h2⟩
      exact h2
  | cons b bs ih =>
    simp only [hasSeg, Bool.or_eq_true, leadMatch_iff, ih]
    constructor
    · rintro (⟨t, ht⟩ | ⟨pre, suf, rfl⟩)
      · exact ⟨[], t, by simpa using ht⟩
      · exact ⟨b :: pre, suf, rfl⟩
    · rintro ⟨pre, suf, hps⟩
      cases pre with
      | nil => exact .inl ⟨suf, by simpa using hps⟩
      | cons p ps =>
        injection hps with h1 h2
        exact .inr ⟨ps, suf, h2⟩

/-- The empty needle occurs in every haystack. -/
theorem hasSeg_nil (h : List Char) : hasSeg [] h = true := by
  cases h <;> simp [hasSeg, leadMatch]

/-- Sorting does not change the length, for every sort mode. -/
theorem sortPosts_length (m : SortBy) (l : List Post) :
    (sortPosts m l).length = l.length :=
  (List.perm_insertionSort (sortLE m) l).length_eq

/-- The integer form of `Math.ceil(n / 12)`. -/
theorem ceil_div12 (n : Nat) : (n + 12 - 1) / 12 = ⌈(n : ℚ) / 12⌉₊ := by
  apply le_antisymm
  · have h1 : (n : ℚ) / 12 ≤ (⌈(n : ℚ) / 12⌉₊ : ℚ) := Nat.le_ceil _
    rw [div_le_iff₀ (by norm_num : (0 : ℚ) < 12)] at h1
    have h3 : n ≤ ⌈(n : ℚ) / 12⌉₊ * 12 := by exact_mod_cast h1
    omega
  · rw [Nat.ceil_le, div_le_iff₀ (by norm_num : (0 : ℚ) < 12)]
    have h4 : n ≤ (n + 12 - 1) / 12 * 12 := by omega
    exact_mod_cast h4

/-- Claim C1: for every post list `P` and search string `s`, the
filter step keeps exactly the posts whose title contains `s`
case-insensitively, or whose body contains `s` case-insensitively, or
whose owning-user identifier's decimal string equals `s` exactly, and
no other posts. -/
theorem filter_keeps_exactly_matches (P : List Post) (s : String) :
    (filterPosts P s).Sublist P ∧
    ∀ p, p ∈ filterPosts P s ↔
      p ∈ P ∧ (ContainsCI p.title s ∨ ContainsCI p.body s ∨ toString p.userId = s) := by
  refine ⟨List.filter_sublist P, fun p => ?_⟩
  rw [filterPosts, List.mem_filter]
  refine and_congr_right fun _ => ?_
  simp [matchesSearch, strIncludes, hasSeg_iff, ContainsCI, Bool.or_eq_true, beq_iff_eq,
    or_assoc]

/-- Claim C2, counterexample: for the post with identifier 1 the
enrichment step does not assign the first `1 mod 3` elements of the
vocabulary (it assigns `["business", "health"]`, not `["tech"]`). -/
theorem tags_take_cex :
    (enrichPost [] { id := 1, userId := 1, title := "a", body := "b" }).tags ≠
      List.take (1 % 3) tagVocabulary := by decide

/-- Claim C2, amended: the enrichment step assigns each post the tag
list obtained by dropping the first `id mod 3` elements of the fixed
vocabulary `["tech", "business", "health"]`; in particular the tag
list has length `3 - (id mod 3)`. -/
theorem tags_amended (users : List User) (p : RawPost) :
    (enrichPost users p).tags = tagVocabulary.drop (p.id % 3) ∧
    (enrichPost users p).tags.length = 3 - p.id % 3 := by
  refine ⟨rfl, ?_⟩
  simp [enrichPost, tagVocabulary]

/-- Claim C4: sorting the filtered list with mode `newest` yields a
list non-increasing by identifier, `oldest` non-decreasing by
identifier, and `alphabetical` non-decreasing lexicographically by
title (the embedding of the locale-aware comparison); each mode
permutes its input. -/
theorem sortPosts_sorted (l : List Post) :
    List.Sorted (fun a b : Post => b.id ≤ a.id) (sortPosts .newest l) ∧
    List.Sorted (fun a b : Post => a.id ≤ b.id) (sortPosts .oldest l) ∧
    List.Sorted (fun a b : Post => a.title ≤ b.title) (sortPosts .alphabetical l) ∧
    ∀ m : SortBy, (sortPosts m l).Perm l := by
  refine ⟨?_, ?_, ?_, fun m => List.perm_insertionSort _ l⟩
  · exact List.sorted_insertionSort (sortLE .newest) l
  · exact List.sorted_insertionSort (sortLE .oldest) l
  · exact List.sorted_insertionSort (sortLE .alphabetical) l

/-- Claim C3, counterexample: from the concrete state on page 2 of 2,
where the pagination invariant holds, confirming a delete leaves the
current page at 2 while the recomputed page count drops to 1, so the
invariant `currentPage ≤ pageCount` fails after the delete. -/
theorem page_bound_cex :
    (1 ≤ cexState.currentPage ∧
      cexState.currentPage ≤ derivedPageCount cexState cexState.searchQuery) ∧
    ¬ ((handleDelete cexState 3).currentPage
        ≤ derivedPageCount (handleDelete cexState 3) (handleDelete cexState 3).searchQuery) := by
  decide

/-- Claim C3, amended: a search-text change sets the current page to
1; a sort-mode change leaves both the current page and the derived
page count unchanged (so it preserves `1 ≤ currentPage ≤ pageCount`
whenever that bound already held); a delete leaves the current page
unchanged, so the current page can exceed the recomputed page count
(and a search with no matches leaves `currentPage = 1 > pageCount = 0`). -/
theorem page_events_amended (st : AppState) (q : String) (m : SortBy) (pid : Nat) :
    (onSearchChange st q).currentPage = 1 ∧
    (onSortSelect st m).currentPage = st.currentPage ∧
    derivedPageCount (onSortSelect st m) q = derivedPageCount st q ∧
    (handleDelete st pid).currentPage = st.currentPage := by
  refine ⟨rfl, rfl, ?_, rfl⟩
  simp [derivedPageCount, derivedSorted, pageCountOf, onSortSelect, sortPosts_length]

/-- Claim C5: for a sorted filtered list and page size 12, the page
count is the ceiling of `count / 12`, and for every page `p` in
`[1, pageCount]` the visible slice is the contiguous slice of the
sorted list starting at `(p-1)*12`, has length
`min 12 (count - (p-1)*12)`, and agrees with the sorted list
elementwise. -/
theorem pagination_spec (l : List Post) (p : Nat) (hp1 : 1 ≤ p)
    (hp2 : p ≤ pageCountOf l 12) :
    pageCountOf l 12 = ⌈(l.length : ℚ) / 12⌉₊ ∧
    visibleSlice l p 12 = (l.drop ((p - 1) * 12)).take 12 ∧
    (visibleSlice l p 12).length = min 12 (l.length - (p - 1) * 12) ∧
    ∀ i < (visibleSlice l p 12).length,
      (visibleSlice l p 12)[i]? = l[(p - 1) * 12 + i]? := by
  have e1 : p * 12 - 12 = (p - 1) * 12 := by omega
  have e2 : p * 12 - (p * 12 - 12) = 12 := by omega
  have hslice : visibleSlice l p 12 = (l.drop ((p - 1) * 12)).take 12 := by
    rw [visibleSlice, jsSlice, e2, e1]
  have hlen : (visibleSlice l p 12).length = min 12 (l.length - (p - 1) * 12) := by
    rw [hslice]
    simp [List.length_take, List.length_drop]
  refine ⟨ceil_div12 l.length, hslice, hlen, ?_⟩
  intro i hi
  have hi12 : i < 12 := by
    rw [hlen] at hi
    omega
  rw [hslice, List.getElem?_take, if_pos hi12, List.getElem?_drop]

/-- Claim C5, witness: the concrete thirteen-post list on page 2. -/
theorem pagination_spec_witness :
    (1 ≤ 2 ∧ 2 ≤ pageCountOf wList13 12) ∧
    (pageCountOf wList13 12 = ⌈(wList13.length : ℚ) / 12⌉₊ ∧
     visibleSlice wList13 2 12 = (wList13.drop ((2 - 1) * 12)).take 12 ∧
     (visibleSlice wList13 2 12).length = min 12 (wList13.length - (2 - 1) * 12) ∧
     ∀ i < (visibleSlice wList13 2 12).length,
       (visibleSlice wList13 2 12)[i]? = wList13[(2 - 1) * 12 + i]?) :=
  ⟨⟨by decide, by decide⟩, pagination_spec wList13 2 (by decide) (by decide)⟩

/-- Claim C6: toggling a favorite twice returns the favorites set to
its original value (same members), and after each single toggle the
value persisted under the `favorites` local-storage key is the
serialization of the in-memory favorites list. -/
theorem toggle_twice_and_persist (s : Session) (pid : Nat) :
    (∀ x, x ∈ (toggleFavorite (toggleFavorite s pid) pid).app.favorites ↔
      x ∈ s.app.favorites) ∧
    (toggleFavorite s pid).storage =
      some (serializeFavorites (toggleFavorite s pid).app.favorites) ∧
    (toggleFavorite (toggleFavorite s pid) pid).storage =
      some (serializeFavorites
        (toggleFavorite (toggleFavorite s pid) pid).app.favorites) := by
  refine ⟨?_, rfl, rfl⟩
  intro x
  by_cases h : pid ∈ s.app.favorites
  · have hc : s.app.favorites.contains pid = true := by simpa using h
    have hc2 : (s.app.favorites.filter (fun id => id != pid)).contains pid = false := by
      simp [List.mem_filter]
    simp only [toggleFavorite, hc, hc2, if_true, if_false, Bool.false_eq_true,
      List.mem_append, List.mem_filter, bne_iff_ne, ne_eq, List.mem_singleton]
    constructor
    · rintro (⟨hx, _⟩ | rfl)
      · exact hx
      · exact h
    · intro hx
      by_cases hxe : x = pid
      · exact .inr hxe
      · exact .inl ⟨hx, hxe⟩
  · have hc : s.app.favorites.contains pid = false := by simpa using h
    have hc2 : (s.app.favorites ++ [pid]).contains pid = true := by simp
    simp only [toggleFavorite, hc, hc2, if_true, if_false, Bool.false_eq_true,
      List.mem_filter, List.mem_append, bne_iff_ne, ne_eq, List.mem_singleton]
    constructor
    · rintro ⟨hx | rfl, hne⟩
      · exact hx
      · exact absurd rfl hne
    · intro hx
      exact ⟨.inl hx, fun hxe => h (hxe ▸ hx)⟩

/-- Claim C7: the fetch-error classifier maps every error to exactly
one of three messages, by mutually exclusive conditions: a response
present yields a message carrying the status code and status text; no
response but a request sent yields the generic not-responding text;
otherwise the generic fallback. -/
theorem error_classification (err : FetchError) :
    (∃ r, err.response = some r ∧
      errorMessage err = "Error: " ++ toString r.status ++ " " ++ r.statusText) ∨
    (err.response = none ∧ err.request = true ∧
      errorMessage err = "Server is not responding") ∨
    (err.response = none ∧ err.request = false ∧
      errorMessage err = "Failed to fetch posts.") := by
  obtain ⟨resp, req⟩ := err
  cases resp with
  | some r => exact .inl ⟨r, rfl, rfl⟩
  | none =>
    cases req with
    | true => exact .inr (.inl ⟨rfl, rfl, rfl⟩)
    | false => exact .inr (.inr ⟨rfl, rfl, rfl⟩)

/-- Claim C8: if either initial fetch fails, the whole load fails: the
in-memory post list is left untouched (so it stays empty when it was
empty), the loading flag clears, and the classified message of one of
the failed fetches is surfaced; no enriched post list is installed. -/
theorem fetch_failure_total (st : AppState)
    (postsRes : Except FetchError (List RawPost))
    (usersRes : Except FetchError (List User))
    (hfail : (∃ e, postsRes = .error e) ∨ (∃ e, usersRes = .error e)) :
    (fetchData st postsRes usersRes).posts = st.posts ∧
    (fetchData st postsRes usersRes).loading = false ∧
    ∃ e, (postsRes = .error e ∨ usersRes = .error e) ∧
      (fetchData st postsRes usersRes).error = errorMessage e := by
  cases postsRes with
  | error e => exact ⟨rfl, rfl, e, .inl rfl, rfl⟩
  | ok ps =>
    cases usersRes with
    | error e => exact ⟨rfl, rfl, e, .inr rfl, rfl⟩
    | ok us =>
      rcases hfail with ⟨e, he⟩ | ⟨e, he⟩ <;> simp at he

/-- Claim C8, witness: a network failure on the posts fetch with a
successful users fetch, from the pristine initial state. -/
theorem fetch_failure_total_witness :
    ((∃ e, (Except.error wErr : Except FetchError (List RawPost)) = .error e) ∨
      (∃ e, (Except.ok [] : Except FetchError (List User)) = .error e)) ∧
    ((fetchData (initState []) (.error wErr) (.ok [])).posts = (initState []).posts ∧
     (fetchData (initState []) (.error wErr) (.ok [])).loading = false ∧
     ∃ e, ((Except.error wErr : Except FetchError (List RawPost)) = .error e ∨
        (Except.ok [] : Except FetchError (List User)) = .error e) ∧
       (fetchData (initState []) (.error wErr) (.ok [])).error = errorMessage e) :=
  ⟨.inl ⟨wErr, rfl⟩,
    fetch_failure_total (initState []) (.error wErr) (.ok []) (.inl ⟨wErr, rfl⟩)⟩

/-- Claim C9: for every state with a pending delete candidate,
confirming the delete removes exactly the posts carrying the
candidate's identifier (all others kept, in their original order),
clears the candidate, opens the toast, and the recomputed pagination
is total: the visible slice never exceeds the page size and collapses
to the empty list when the current page starts past the end. -/
theorem delete_confirm_spec (st : AppState) (cand : Post)
    (hc : st.deleteCandidate = some cand) : DeleteSpec st cand := by
  refine ⟨rfl, List.filter_sublist st.posts, ?_, rfl, rfl, rfl, ?_, ?_⟩
  · intro p
    simp [handleDelete, List.mem_filter, bne_iff_ne]
  · simp only [derivedCurrentPosts, visibleSlice, jsSlice]
    exact le_trans (List.length_take_le _ _) (by omega)
  · intro hle
    simp only [derivedCurrentPosts, visibleSlice, jsSlice]
    rw [List.drop_eq_nil_of_le hle, List.take_nil]

/-- Claim C9, witness: the concrete state with candidate `mkPost 3`. -/
theorem delete_confirm_spec_witness :
    cexState.deleteCandidate = some (mkPost 3) ∧ DeleteSpec cexState (mkPost 3) :=
  ⟨rfl, delete_confirm_spec cexState (mkPost 3) rfl⟩

/-- Claim C10: filtering with the empty search string keeps every
post: the substring checks hold vacuously, so the empty search is the
identity. -/
theorem filter_empty_search_id (P : List Post) : filterPosts P "" = P := by
  apply List.filter_eq_self.mpr
  intro p _
  have hq : toLowerStr "" = "" := rfl
  simp [matchesSearch, strIncludes, hq, hasSeg_nil]

end PostApp
